import Mathlib

/-!
# Verification of the map-reader georeferencing and deduplication pipeline

A shallow embedding of the core of the `map-reader-llm` repository:

* the tiler (`preprocess_tiling.py`): window generation, boundless reads,
  per-tile affine transforms and the legacy lower-left metadata tuples;
* the detection coordinate mappers: the affine-transform convention of
  `2_detect_mounds.py` and the legacy lower-left/resolution convention of
  `3_georeference_and_visualize.py` / `convert_to_geojson.py`;
* the resumable batch runner of `2_detect_mounds.py`: resume-set
  computation from the persisted feature collection, parse-failure and
  API-error handling, the processing cap, and the processing loop;
* the detection clusterer `deduplicate_detections` of
  `3_georeference_and_visualize.py`: buffer-union-centroid deduplication.

All geometry is carried out over `ℚ`: the Python floats are modelled as
exact rationals, so the floating-point tolerances of the specification
become exact equalities.
-/

/-! ## Configuration constants (config.py) -/

/-- `TILE_SIZE = 512` from `config.py`. -/
def TILE_SIZE : ℕ := 512

/-- `OVERLAP = 64` from `config.py`. -/
def OVERLAP : ℕ := 64

/-! ## AffineGeoTransform

Six coefficients `(a, b, c, d, e, f)` with
`geo_x = a*col + b*row + c`, `geo_y = d*col + e*row + f`; this is the
coefficient convention of the `affine`/`rasterio` library used by
`preprocess_tiling.py`. -/

structure Affine where
  a : ℚ
  b : ℚ
  c : ℚ
  d : ℚ
  e : ℚ
  f : ℚ
  deriving DecidableEq, Repr

/-- `transform * (col, row) -> (x, y)`: apply the affine map to a pixel
coordinate, as in `geo_x1, geo_y1 = transform * (px_min_x, px_min_y)`. -/
def Affine.pixel_to_geo (t : Affine) (col row : ℚ) : ℚ × ℚ :=
  (t.a * col + t.b * row + t.c, t.d * col + t.e * row + t.f)

/-- Composition of two affine maps (the `Affine.__mul__` of the `affine`
library): the 3×3 matrix product of the augmented matrices. -/
def Affine.comp (t u : Affine) : Affine where
  a := t.a * u.a + t.b * u.d
  b := t.a * u.b + t.b * u.e
  c := t.a * u.c + t.b * u.f + t.c
  d := t.d * u.a + t.e * u.d
  e := t.d * u.b + t.e * u.e
  f := t.d * u.c + t.e * u.f + t.f

/-- `Affine.translation(ox, oy)`: pure pixel-offset translation. -/
def Affine.translation (ox oy : ℚ) : Affine :=
  ⟨1, 0, ox, 0, 1, oy⟩

/-- `rasterio.windows.transform(Window(ox, oy, w, h), t)`: the transform of
a sub-window, namely the parent transform composed with the translation
that moves the window origin to pixel `(0, 0)`. -/
def Affine.for_window (t : Affine) (ox oy : ℚ) : Affine :=
  t.comp (Affine.translation ox oy)

/-- `src.res` of rasterio in its rectilinear branch (`b == d == 0`):
`(a, -e)`, the per-pixel geo sizes, positive for a north-up raster with
`a > 0`, `e < 0`.  The embedding is used only under the north-up
hypotheses `b = d = 0` of the claims. -/
def Affine.res (t : Affine) : ℚ × ℚ :=
  (t.a, -t.e)

/-- `rasterio.windows.bounds(window, transform)` =
`array_bounds(h, w, windows.transform(window, transform))`: transform the
window-local corners `(0,0)` and `(w,h)` and return `(left, bottom,
right, top)` = `(w, s, e, n)`. -/
def windowBounds (t : Affine) (ox oy w h : ℚ) : ℚ × ℚ × ℚ × ℚ :=
  let wt := t.for_window ox oy
  let wn := wt.pixel_to_geo 0 0
  let es := wt.pixel_to_geo w h
  (wn.1, es.2, es.1, wn.2)

/-- The legacy metadata entry written by `tile_raster` for a tile with
window origin `(ox, oy)`:
`w, s, e, n = rasterio.windows.bounds(window, src.transform)` followed by
`metadata[tile_filename] = [w, s, src.res[0], src.res[1]]`. -/
def tileMetadataEntry (t : Affine) (ox oy tileSize : ℚ) : ℚ × ℚ × ℚ × ℚ :=
  let b := windowBounds t ox oy tileSize tileSize
  (b.1, b.2.1, t.res.1, t.res.2)

/-! ## Detection boxes and the two coordinate mappers -/

/-- An oracle detection box `[ymin, xmin, ymax, xmax]` on the normalized
0–1000 scale (origin top-left, y increasing downward). -/
structure Box2d where
  ymin : ℚ
  xmin : ℚ
  ymax : ℚ
  xmax : ℚ
  deriving DecidableEq, Repr

/-- The axis-aligned geo box handed to `shapely.geometry.box(minx, miny,
maxx, maxy)`: the four arguments in order. -/
structure GeoBox where
  minx : ℚ
  miny : ℚ
  maxx : ℚ
  maxy : ℚ
  deriving DecidableEq, Repr

/-- Convention (a), from `2_detect_mounds.py` lines 146–166: scale the
normalized coordinates by `TILE_SIZE / 1000`, map the two opposite pixel
corners through the tile's affine transform, and take elementwise
min/max. -/
def mapDetectionAffine (transform : Affine) (tileSize : ℚ) (det : Box2d) : GeoBox :=
  let px_min_x := det.xmin / 1000 * tileSize
  let px_max_x := det.xmax / 1000 * tileSize
  let px_min_y := det.ymin / 1000 * tileSize
  let px_max_y := det.ymax / 1000 * tileSize
  let g1 := transform.pixel_to_geo px_min_x px_min_y
  let g2 := transform.pixel_to_geo px_max_x px_max_y
  { minx := min g1.1 g2.1
    miny := min g1.2 g2.2
    maxx := max g1.1 g2.1
    maxy := max g1.2 g2.2 }

/-- Convention (b), from `process_results` in
`3_georeference_and_visualize.py` lines 108–125 (identically in
`convert_to_geojson.py`): the legacy lower-left/resolution formulas
`geo_x = ll_x + px_x * res_x`,
`geo_y = ll_y + (TILE_SIZE - px_y) * res_y`, with the vertical axis
flipped and no min/max normalization. -/
def mapDetectionLegacy (ll_x ll_y res_x res_y tileSize : ℚ) (det : Box2d) : GeoBox :=
  let px_min_y := det.ymin / 1000 * tileSize
  let px_max_y := det.ymax / 1000 * tileSize
  let px_min_x := det.xmin / 1000 * tileSize
  let px_max_x := det.xmax / 1000 * tileSize
  let geo_min_x := ll_x + px_min_x * res_x
  let geo_max_x := ll_x + px_max_x * res_x
  let geo_max_y := ll_y + (tileSize - px_min_y) * res_y
  let geo_min_y := ll_y + (tileSize - px_max_y) * res_y
  { minx := geo_min_x
    miny := geo_min_y
    maxx := geo_max_x
    maxy := geo_max_y }

/-! ## Theorems: affine re-anchoring (C8) and concrete mapping (C5, C7) -/

/-- C8: for every affine transform `(a, b, c, d, e, f)` and window origin
`(ox, oy)`, the re-anchored window transform has constant terms
`c' = a*ox + b*oy + c` and `f' = d*ox + e*oy + f`, the other four
coefficients unchanged, and `for_window(ox, oy).pixel_to_geo(0, 0)`
equals `transform.pixel_to_geo(ox, oy)` exactly. -/
theorem for_window_reanchors (t : Affine) (ox oy : ℚ) :
    (t.for_window ox oy).c = t.a * ox + t.b * oy + t.c ∧
    (t.for_window ox oy).f = t.d * ox + t.e * oy + t.f ∧
    (t.for_window ox oy).a = t.a ∧
    (t.for_window ox oy).b = t.b ∧
    (t.for_window ox oy).d = t.d ∧
    (t.for_window ox oy).e = t.e ∧
    (t.for_window ox oy).pixel_to_geo 0 0 = t.pixel_to_geo ox oy := by
  refine ⟨?_, ?_, ?_, ?_, ?_, ?_, ?_⟩ <;>
    simp [Affine.for_window, Affine.comp, Affine.translation, Affine.pixel_to_geo]

/-- C5: the full-tile box `[0, 0, 1000, 1000]` on a tile with lower-left
`(100, 200)`, resolution `(2, 2)` and `TILE_SIZE = 512` maps to the geo
box `[100, 200, 1124, 1224]`; and any box with `ymin = 0, ymax = 10` on
the same tile maps to a geo box whose maximum Y is `1224` (the top of the
tile) and whose vertical span is `10.24` units. -/
theorem legacy_mapping_concrete :
    mapDetectionLegacy 100 200 2 2 512 ⟨0, 0, 1000, 1000⟩ =
      ⟨100, 200, 1124, 1224⟩ ∧
    ∀ xmin xmax : ℚ,
      (mapDetectionLegacy 100 200 2 2 512 ⟨0, xmin, 10, xmax⟩).maxy = 1224 ∧
      (mapDetectionLegacy 100 200 2 2 512 ⟨0, xmin, 10, xmax⟩).maxy -
        (mapDetectionLegacy 100 200 2 2 512 ⟨0, xmin, 10, xmax⟩).miny = 10.24 := by
  constructor
  · norm_num [mapDetectionLegacy]
  · intro xmin xmax
    norm_num [mapDetectionLegacy]

/-- C7, counterexample: the legacy mapper of `process_results` does not
normalize via min/max, so the malformed box `[0, 1000, 10, 0]`
(`xmin = 1000 > xmax = 0`) on the C5 tile yields an inverted geo box with
`maxx = 100 < 1124 = minx`. -/
theorem legacy_mapping_inverted_box :
    (mapDetectionLegacy 100 200 2 2 512 ⟨0, 1000, 10, 0⟩).maxx <
      (mapDetectionLegacy 100 200 2 2 512 ⟨0, 1000, 10, 0⟩).minx := by
  norm_num [mapDetectionLegacy]

/-- C7, amended: the affine-convention mapper of `2_detect_mounds.py`
normalizes via min/max, so its emitted geo box always has its minimum
coordinate at most its maximum on both axes, even for a malformed
normalized box; the legacy mapper of `process_results` does not normalize
and can emit an inverted box. -/
theorem affine_mapping_never_inverted (t : Affine) (tileSize : ℚ) (det : Box2d) :
    (mapDetectionAffine t tileSize det).minx ≤ (mapDetectionAffine t tileSize det).maxx ∧
    (mapDetectionAffine t tileSize det).miny ≤ (mapDetectionAffine t tileSize det).maxy := by
  constructor <;> exact min_le_max

/-! ## C1: agreement of the two mapping conventions -/

/-- Helper: explicit coefficients of the re-anchored window transform. -/
lemma for_window_coeffs (t : Affine) (ox oy : ℚ) :
    t.for_window ox oy =
      ⟨t.a, t.b, t.a * ox + t.b * oy + t.c, t.d, t.e, t.d * ox + t.e * oy + t.f⟩ := by
  simp only [Affine.for_window, Affine.comp, Affine.translation, Affine.mk.injEq]
  refine ⟨by ring, by ring, by ring, by ring, by ring, by ring⟩

/-- C1: for every normalized detection box (given with `ymin ≤ ymax`,
`xmin ≤ xmax`) and every tile whose legacy metadata tuple
`[lower_left_x, lower_left_y, res_x, res_y]` is derived from the same
north-up window (`b = d = 0`, `a = res_x ≥ 0`, `e = -res_y ≤ 0`), the two
mapping conventions agree: applying the tile's affine transform to the
two opposite pixel corners and taking elementwise min/max yields the same
axis-aligned geo box as the lower-left formula
`geo_x = lower_left_x + px_x * res_x`,
`geo_y = lower_left_y + (TILE_SIZE - px_y) * res_y`. -/
theorem conventions_agree (t : Affine) (ox oy tileSize : ℚ) (det : Box2d)
    (hb : t.b = 0) (hd : t.d = 0) (ha : 0 ≤ t.a) (he : t.e ≤ 0)
    (hT : 0 ≤ tileSize) (hy : det.ymin ≤ det.ymax) (hx : det.xmin ≤ det.xmax) :
    mapDetectionAffine (t.for_window ox oy) tileSize det =
      mapDetectionLegacy (tileMetadataEntry t ox oy tileSize).1
        (tileMetadataEntry t ox oy tileSize).2.1
        (tileMetadataEntry t ox oy tileSize).2.2.1
        (tileMetadataEntry t ox oy tileSize).2.2.2 tileSize det := by
  have h1000 : (0 : ℚ) < 1000 := by norm_num
  have hpx : det.xmin / 1000 * tileSize ≤ det.xmax / 1000 * tileSize :=
    mul_le_mul_of_nonneg_right ((div_le_div_iff_of_pos_right h1000).mpr hx) hT
  have hpy : det.ymin / 1000 * tileSize ≤ det.ymax / 1000 * tileSize :=
    mul_le_mul_of_nonneg_right ((div_le_div_iff_of_pos_right h1000).mpr hy) hT
  have hgx : t.a * (det.xmin / 1000 * tileSize) ≤ t.a * (det.xmax / 1000 * tileSize) :=
    mul_le_mul_of_nonneg_left hpx ha
  have hgy : t.e * (det.ymax / 1000 * tileSize) ≤ t.e * (det.ymin / 1000 * tileSize) := by
    nlinarith [hpy, he]
  rw [for_window_coeffs]
  simp only [mapDetectionAffine, mapDetectionLegacy, tileMetadataEntry, windowBounds,
    Affine.for_window, Affine.comp, Affine.translation, Affine.pixel_to_geo, Affine.res,
    hb, hd, GeoBox.mk.injEq, zero_mul, mul_zero, add_zero, zero_add]
  refine ⟨?_, ?_, ?_, ?_⟩
  · rw [min_def]; split_ifs <;> linarith [hgx, hgy]
  · rw [min_def]; split_ifs <;> linarith [hgx, hgy]
  · rw [max_def]; split_ifs <;> linarith [hgx, hgy]
  · rw [max_def]; split_ifs <;> linarith [hgx, hgy]

/-- Witness for `conventions_agree` at the C5 tile: parent transform
`(2, 0, 100, 0, -2, 3272)`, window origin `(448, 448)`, tile size `512`,
detection box `[0, 250, 1000, 750]`. -/
theorem conventions_agree_witness :
    ((0 : ℚ) = 0 ∧ (0 : ℚ) = 0 ∧ (0 : ℚ) ≤ 2 ∧ (-2 : ℚ) ≤ 0 ∧ (0 : ℚ) ≤ 512 ∧
      (0 : ℚ) ≤ 1000 ∧ (250 : ℚ) ≤ 750) ∧
    mapDetectionAffine ((Affine.mk 2 0 100 0 (-2) 3272).for_window 448 448) 512
        ⟨0, 250, 1000, 750⟩ =
      mapDetectionLegacy
        (tileMetadataEntry ⟨2, 0, 100, 0, -2, 3272⟩ 448 448 512).1
        (tileMetadataEntry ⟨2, 0, 100, 0, -2, 3272⟩ 448 448 512).2.1
        (tileMetadataEntry ⟨2, 0, 100, 0, -2, 3272⟩ 448 448 512).2.2.1
        (tileMetadataEntry ⟨2, 0, 100, 0, -2, 3272⟩ 448 448 512).2.2.2 512
        ⟨0, 250, 1000, 750⟩ :=
  ⟨⟨rfl, rfl, by norm_num, by norm_num, by norm_num, by norm_num, by norm_num⟩,
    conventions_agree ⟨2, 0, 100, 0, -2, 3272⟩ 448 448 512 ⟨0, 250, 1000, 750⟩
      rfl rfl (by norm_num) (by norm_num) (by norm_num) (by norm_num) (by norm_num)⟩

/-! ## Tiler (preprocess_tiling.py): window generation and boundless reads -/

/-- Python `range(0, extent, step)` for `step > 0`: the multiples of
`step` below `extent`, in increasing order. -/
def tileOrigins (extent step : ℕ) : List ℕ :=
  (List.range ((extent + step - 1) / step)).map (· * step)

/-- The window origins emitted by `tile_raster`:
`for y in range(0, height, step): for x in range(0, width, step):
windows.append((x, y, Window(x, y, TILE_SIZE, TILE_SIZE)))`
with `step = TILE_SIZE - OVERLAP`. -/
def tileWindows (width height tileSize overlap : ℕ) : List (ℕ × ℕ) :=
  let step := tileSize - overlap
  (tileOrigins height step).flatMap (fun y => (tileOrigins width step).map (fun x => (x, y)))

/-- One pixel of a boundless window read
(`src.read(window=window, boundless=True, fill_value=0)`): the source
pixel when `(ox + i, oy + j)` is inside the raster, `0` otherwise. -/
def tilePixel (W H : ℕ) (src : ℕ → ℕ → ℕ) (ox oy i j : ℕ) : ℕ :=
  if ox + i < W ∧ oy + j < H then src (ox + i) (oy + j) else 0

/-- The full `T × T` pixel grid read for the window at origin `(ox, oy)`,
rows indexed by `j`, columns by `i`. -/
def readTile (W H : ℕ) (src : ℕ → ℕ → ℕ) (ox oy T : ℕ) : List (List ℕ) :=
  (List.range T).map (fun j => (List.range T).map (fun i => tilePixel W H src ox oy i j))

/-- Helper: `i` is below the ceiling division iff `i * step` is below
`extent`. -/
lemma lt_ceilDiv_iff (extent step i : ℕ) (hstep : 0 < step) :
    i < (extent + step - 1) / step ↔ i * step < extent := by
  rw [Nat.lt_iff_add_one_le, Nat.le_div_iff_mul_le hstep]
  have h : (i + 1) * step = i * step + step := by ring
  rw [h]
  generalize i * step = m
  omega

/-- Helper: membership in the emitted origins along one axis. -/
lemma mem_tileOrigins {extent step : ℕ} (hstep : 0 < step) (x : ℕ) :
    x ∈ tileOrigins extent step ↔ step ∣ x ∧ x < extent := by
  unfold tileOrigins
  simp only [List.mem_map, List.mem_range]
  constructor
  · rintro ⟨i, hi, rfl⟩
    exact ⟨dvd_mul_left step i, (lt_ceilDiv_iff extent step i hstep).mp hi⟩
  · rintro ⟨⟨i, rfl⟩, hlt⟩
    exact ⟨i, (lt_ceilDiv_iff extent step i hstep).mpr (by rwa [mul_comm]), (mul_comm i step).trans rfl⟩

/-- Helper: the multiples of `step` cover `[0, extent)` with stride
`step ≤ tileSize`. -/
lemma tileOrigins_cover {extent step tileSize : ℕ} (hstep : 0 < step)
    (hle : step ≤ tileSize) (p : ℕ) (hp : p < extent) :
    ∃ o ∈ tileOrigins extent step, o ≤ p ∧ p < o + tileSize := by
  refine ⟨p / step * step, ?_, Nat.div_mul_le_self p step, ?_⟩
  · rw [mem_tileOrigins hstep]
    exact ⟨dvd_mul_left step (p / step),
      lt_of_le_of_lt (Nat.div_mul_le_self p step) hp⟩
  · have h1 : step * (p / step) + p % step = p := Nat.div_add_mod p step
    have h2 : p % step < step := Nat.mod_lt _ hstep
    have h3 : p / step * step = step * (p / step) := mul_comm _ _
    rw [h3]
    generalize step * (p / step) = m at h1 ⊢
    omega

/-- Helper: two consecutive windows along an axis share exactly
`overlap` pixel columns/rows. -/
lemma consecutive_windows_overlap (tileSize overlap o : ℕ) (hov : overlap < tileSize) :
    (Finset.Ico o (o + tileSize) ∩
      Finset.Ico (o + (tileSize - overlap)) (o + (tileSize - overlap) + tileSize)).card
      = overlap := by
  rw [Finset.Ico_inter_Ico, max_eq_right (by omega), min_eq_left (by omega), Nat.card_Ico]
  omega

/-- C2: for every raster of width `W ≥ 1` and height `H ≥ 1`, with
`0 ≤ OVERLAP < TILE_SIZE` and `step = TILE_SIZE - OVERLAP`, the Tiler
emits exactly the windows whose origins `(x, y)` are multiples of `step`
with `x < W`, `y < H`; the union of the windows covers `[0,W) × [0,H)`
with no gaps; consecutive windows along an axis overlap by exactly
`OVERLAP` pixels; and every window is read at full
`TILE_SIZE × TILE_SIZE` with out-of-bounds pixels filled with `0`. -/
theorem tiler_windows_spec (W H tileSize overlap : ℕ) (src : ℕ → ℕ → ℕ)
    (hW : 1 ≤ W) (hH : 1 ≤ H) (hov : overlap < tileSize) :
    (∀ x y : ℕ, (x, y) ∈ tileWindows W H tileSize overlap ↔
      ((tileSize - overlap) ∣ x ∧ x < W ∧ (tileSize - overlap) ∣ y ∧ y < H)) ∧
    (∀ px py : ℕ, px < W → py < H →
      ∃ w ∈ tileWindows W H tileSize overlap,
        w.1 ≤ px ∧ px < w.1 + tileSize ∧ w.2 ≤ py ∧ py < w.2 + tileSize) ∧
    (∀ o : ℕ,
      (Finset.Ico o (o + tileSize) ∩
        Finset.Ico (o + (tileSize - overlap)) (o + (tileSize - overlap) + tileSize)).card
        = overlap) ∧
    (∀ w ∈ tileWindows W H tileSize overlap,
      (readTile W H src w.1 w.2 tileSize).length = tileSize ∧
      ∀ row ∈ readTile W H src w.1 w.2 tileSize, row.length = tileSize) ∧
    (∀ ox oy i j : ℕ, W ≤ ox + i ∨ H ≤ oy + j →
      tilePixel W H src ox oy i j = 0) := by
  have hstep : 0 < tileSize - overlap := by omega
  have hle : tileSize - overlap ≤ tileSize := by omega
  refine ⟨?_, ?_, ?_, ?_, ?_⟩
  · intro x y
    simp only [tileWindows, List.mem_flatMap, List.mem_map, Prod.mk.injEq]
    constructor
    · rintro ⟨y', hy', x', hx', rfl, rfl⟩
      have h1 := (mem_tileOrigins hstep x').mp hx'
      have h2 := (mem_tileOrigins hstep y').mp hy'
      exact ⟨h1.1, h1.2, h2.1, h2.2⟩
    · rintro ⟨hdx, hxW, hdy, hyH⟩
      exact ⟨y, (mem_tileOrigins hstep y).mpr ⟨hdy, hyH⟩,
        x, (mem_tileOrigins hstep x).mpr ⟨hdx, hxW⟩, rfl, rfl⟩
  · intro px py hpx hpy
    obtain ⟨ox, hox, hox1, hox2⟩ := tileOrigins_cover hstep hle px hpx
    obtain ⟨oy, hoy, hoy1, hoy2⟩ := tileOrigins_cover hstep hle py hpy
    refine ⟨(ox, oy), ?_, hox1, hox2, hoy1, hoy2⟩
    simp only [tileWindows, List.mem_flatMap, List.mem_map]
    exact ⟨oy, hoy, ox, hox, rfl⟩
  · intro o
    exact consecutive_windows_overlap tileSize overlap o hov
  · intro w _
    constructor
    · simp [readTile]
    · intro row hrow
      simp only [readTile, List.mem_map] at hrow
      obtain ⟨j, _, rfl⟩ := hrow
      simp
  · intro ox oy i j hout
    simp only [tilePixel, ite_eq_right_iff]
    intro hin
    omega

/-- Witness for `tiler_windows_spec`: a 5 × 3 raster, tile size 2,
overlap 1. -/
theorem tiler_windows_spec_witness :
    (1 ≤ 5 ∧ 1 ≤ 3 ∧ 1 < 2) ∧
    ((∀ x y : ℕ, (x, y) ∈ tileWindows 5 3 2 1 ↔
      ((2 - 1) ∣ x ∧ x < 5 ∧ (2 - 1) ∣ y ∧ y < 3)) ∧
    (∀ px py : ℕ, px < 5 → py < 3 →
      ∃ w ∈ tileWindows 5 3 2 1,
        w.1 ≤ px ∧ px < w.1 + 2 ∧ w.2 ≤ py ∧ py < w.2 + 2) ∧
    (∀ o : ℕ,
      (Finset.Ico o (o + 2) ∩ Finset.Ico (o + (2 - 1)) (o + (2 - 1) + 2)).card = 1) ∧
    (∀ w ∈ tileWindows 5 3 2 1,
      (readTile 5 3 (fun _ _ => 7) w.1 w.2 2).length = 2 ∧
      ∀ row ∈ readTile 5 3 (fun _ _ => 7) w.1 w.2 2, row.length = 2) ∧
    (∀ ox oy i j : ℕ, 5 ≤ ox + i ∨ 3 ≤ oy + j →
      tilePixel 5 3 (fun _ _ => 7) ox oy i j = 0)) :=
  ⟨⟨by decide, by decide, by decide⟩,
    tiler_windows_spec 5 3 2 1 (fun _ _ => 7) (by decide) (by decide) (by decide)⟩

/-! ## C9: no transform validation before tiling -/

/-- The legacy metadata lookup table produced by `tile_raster`: one entry
per emitted window, keyed by the window origin `(x, y)` (which determines
the tile filename `f"{map_name}_x{x}_y{y}.png"`). -/
def tileRasterMetadata (t : Affine) (width height tileSize overlap : ℕ) :
    List ((ℕ × ℕ) × (ℚ × ℚ × ℚ × ℚ)) :=
  (tileWindows width height tileSize overlap).map
    (fun p => (p, tileMetadataEntry t (p.1 : ℚ) (p.2 : ℚ) (tileSize : ℚ)))

/-- C9, counterexample: `tile_raster` contains no validity check on the
transform.  A 512 × 512 raster whose transform has `a = 0` (zero
horizontal resolution) is tiled anyway: with `TILE_SIZE = 512` and
`OVERLAP = 64` all four windows are emitted and all four metadata entries
are produced, contradicting the claim that no tiles or metadata are
produced. -/
theorem degenerate_transform_still_tiled :
    (Affine.mk 0 0 100 0 (-2) 3272).a = 0 ∧
    (tileWindows 512 512 TILE_SIZE OVERLAP).length = 4 ∧
    (tileRasterMetadata ⟨0, 0, 100, 0, -2, 3272⟩ 512 512 TILE_SIZE OVERLAP).length = 4 := by
  refine ⟨rfl, by decide, ?_⟩
  rw [tileRasterMetadata, List.length_map]
  decide

/-- C9, amended: the pipeline performs no validation of the transform;
a raster whose transform has `a = 0` or `e = 0` is tiled like any other,
producing one metadata entry per emitted window, keyed by that window. -/
theorem no_transform_validation (t : Affine) (W H tileSize overlap : ℕ)
    (hdeg : t.a = 0 ∨ t.e = 0) :
    (tileRasterMetadata t W H tileSize overlap).length
      = (tileWindows W H tileSize overlap).length ∧
    (tileRasterMetadata t W H tileSize overlap).map Prod.fst
      = tileWindows W H tileSize overlap := by
  constructor
  · rw [tileRasterMetadata, List.length_map]
  · rw [tileRasterMetadata, List.map_map]
    exact List.map_id _

/-- Witness for `no_transform_validation` at a transform with `a = 0`. -/
theorem no_transform_validation_witness :
    ((Affine.mk 0 0 100 0 (-2) 3272).a = 0 ∨ (Affine.mk 0 0 100 0 (-2) 3272).e = 0) ∧
    ((tileRasterMetadata ⟨0, 0, 100, 0, -2, 3272⟩ 5 3 2 1).length
      = (tileWindows 5 3 2 1).length ∧
    (tileRasterMetadata ⟨0, 0, 100, 0, -2, 3272⟩ 5 3 2 1).map Prod.fst
      = tileWindows 5 3 2 1) :=
  ⟨Or.inl rfl, no_transform_validation ⟨0, 0, 100, 0, -2, 3272⟩ 5 3 2 1 (Or.inl rfl)⟩

/-! ## DetectionClusterer (`deduplicate_detections`)

`3_georeference_and_visualize.py` lines 13–58: buffer all input points by
`distance_threshold / 2`, take `unary_union` of the buffers, and emit the
centroid of each connected part of the union.  The buffers of two points
at distance at most `d` intersect (each has radius `d/2`), and a union of
discs decomposes into one connected region per connected component of the
disc-intersection graph; the embedding computes those components by
incremental merging. -/

/-- A point geometry (a detection centroid). -/
abbrev Pt := ℚ × ℚ

/-- Squared euclidean distance, kept in `ℚ`. -/
def distSq (p q : Pt) : ℚ :=
  (p.1 - q.1) ^ 2 + (p.2 - q.2) ^ 2

/-- The `distance_threshold / 2` buffers of `p` and `q` intersect iff the
centres are at distance at most the threshold `d`. -/
def buffersOverlap (d : ℚ) (p q : Pt) : Bool :=
  decide (distSq p q ≤ d ^ 2)

/-- Merge a new buffered point into the connected regions built so far:
all regions its buffer touches fuse with it into one region. -/
def insertPoint (d : ℚ) (p : Pt) (cs : List (List Pt)) : List (List Pt) :=
  (p :: (cs.filter (fun c => c.any (buffersOverlap d p))).flatten)
    :: cs.filter (fun c => !c.any (buffersOverlap d p))

/-- The connected regions of the `unary_union` of the buffers: the
connected components of the disc-intersection graph, each listed by its
member centres. -/
def bufferUnionRegions (d : ℚ) (pts : List Pt) : List (List Pt) :=
  pts.foldl (fun cs p => insertPoint d p cs) []

/-- The centroid of a merged region (`geom.centroid`).  A merged region
is a union of equal-radius discs; its centroid is modelled as the mean of
the member centres, which coincides with the area centroid whenever the
centres are placed symmetrically (as in every configuration exercised by
the claims: singletons and evenly spaced collinear chains). -/
def regionCentroid (c : List Pt) : Pt :=
  ((c.map Prod.fst).sum / c.length, (c.map Prod.snd).sum / c.length)

/-- `deduplicate_detections(gdf, distance_threshold)`: one output point
per connected region of the buffered union, at that region's centroid;
an empty input yields an empty output. -/
def deduplicate_detections (pts : List Pt) (d : ℚ) : List Pt :=
  (bufferUnionRegions d pts).map regionCentroid

/-- C6: the clusterer emits exactly one point per disjoint connected
region of the buffered union; two points 5 m apart with threshold 20 m
collapse to one output point; two points 50 m apart with threshold 20 m
stay two points; transitively connected detections (A near B near C)
merge into one cluster even though A and C are more than the threshold
apart; and an empty input yields an empty, well-typed output. -/
theorem clusterer_spec :
    (∀ (pts : List Pt) (d : ℚ),
      (deduplicate_detections pts d).length = (bufferUnionRegions d pts).length) ∧
    (deduplicate_detections [(3, 2), (8, 2)] 20).length = 1 ∧
    (deduplicate_detections [(3, 2), (53, 2)] 20).length = 2 ∧
    (distSq (3, 2) (33, 2) > 20 ^ 2 ∧
      (deduplicate_detections [(3, 2), (18, 2), (33, 2)] 20).length = 1) ∧
    deduplicate_detections [] 20 = [] := by
  have h5 : buffersOverlap 20 ((8 : ℚ), (2 : ℚ)) (3, 2) = true := by
    norm_num [buffersOverlap, distSq]
  have h50 : buffersOverlap 20 ((53 : ℚ), (2 : ℚ)) (3, 2) = false := by
    norm_num [buffersOverlap, distSq]
  have h15 : buffersOverlap 20 ((18 : ℚ), (2 : ℚ)) (3, 2) = true := by
    norm_num [buffersOverlap, distSq]
  have h30a : buffersOverlap 20 ((33 : ℚ), (2 : ℚ)) (18, 2) = true := by
    norm_num [buffersOverlap, distSq]
  refine ⟨?_, ?_, ?_, ⟨?_, ?_⟩, ?_⟩
  · intro pts d
    simp [deduplicate_detections]
  · simp [deduplicate_detections, bufferUnionRegions, insertPoint, h5]
  · simp [deduplicate_detections, bufferUnionRegions, insertPoint, h50]
  · norm_num [distSq]
  · simp [deduplicate_detections, bufferUnionRegions, insertPoint, h15, h30a]
  · simp [deduplicate_detections, bufferUnionRegions]

/-! ## ResumableBatchRunner (`detect_mounds` in 2_detect_mounds.py)

Tile filenames are modelled as elements of a linearly ordered type (the
lexicographic order on path strings); the external oracle
(`model.generate_content` followed by `json.loads`) is modelled as a
function from tile name to a tagged outcome. -/

/-- One parsed detection from the oracle's JSON payload. -/
structure Det where
  box_2d : Box2d
  label : String
  reasoning : String
  deriving DecidableEq

/-- The outcome of one oracle call for one tile:
`apiError` — `model.generate_content` raised (backoff, continue);
`parseFailure` — `json.loads(response.text)` raised (print, continue);
`parsed dets` — the parsed `detections` list (defaulting to `[]`). -/
inductive OracleResult where
  | apiError
  | parseFailure
  | parsed (dets : List Det)
  deriving DecidableEq

/-- A GeoJSON feature as accumulated in `features`: geometry plus the
properties used by the pipeline.  `source_tile` is optional because
features loaded from a pre-existing output file may lack that property
(`if "source_tile" in feat["properties"]`). -/
structure Feature (α : Type) where
  geometry : GeoBox
  source_tile : Option α
  label : String
  reasoning : String
  deriving DecidableEq

/-- The resume set: tiles named by a `source_tile` property of some
loaded feature (`processed_tiles.add(feat["properties"]["source_tile"])`). -/
def processedTiles {α : Type} (features : List (Feature α)) : List α :=
  features.filterMap (fun f => f.source_tile)

/-- The feature built for one detection on one tile. -/
def mkFeature {α : Type} (transform : Affine) (tileSize : ℚ) (name : α)
    (det : Det) : Feature α where
  geometry := mapDetectionAffine transform tileSize det.box_2d
  source_tile := some name
  label := det.label
  reasoning := det.reasoning

/-- Processing of a single tile in the main loop: an API error or a
parse failure leaves the accumulated features unchanged (the loop
`continue`s without recording anything for the tile); a parsed response
appends one feature per detection. -/
def processTile {α : Type} (oracle : α → OracleResult) (transforms : α → Affine)
    (tileSize : ℚ) (features : List (Feature α)) (name : α) : List (Feature α) :=
  match oracle name with
  | .apiError => features
  | .parseFailure => features
  | .parsed dets => features ++ dets.map (mkFeature (transforms name) tileSize name)

/-- The work list of one invocation:
`all_tiles = sorted(all_tiles)` then
`tiles_to_process = [t for t in all_tiles if t.name not in processed_tiles]`,
truncated to `TEST_LIMIT` when `TEST_LIMIT > 0` (`limit = 0` disables the
cap). -/
def tilesToProcess {α : Type} [LinearOrder α] (allTiles : List α)
    (features : List (Feature α)) (limit : ℕ) : List α :=
  let sorted := List.insertionSort (· ≤ ·) allTiles
  let todo := sorted.filter (fun t => decide (t ∉ processedTiles features))
  if 0 < limit then todo.take limit else todo

/-- One invocation of the batch runner `detect_mounds`: fold the per-tile
processing over the work list, starting from the features loaded from the
existing output file. -/
def detect_mounds {α : Type} [LinearOrder α] (oracle : α → OracleResult)
    (transforms : α → Affine) (tileSize : ℚ) (allTiles : List α)
    (features0 : List (Feature α)) (limit : ℕ) : List (Feature α) :=
  (tilesToProcess allTiles features0 limit).foldl
    (processTile oracle transforms tileSize) features0

/-- Does an oracle outcome contribute at least one feature (and hence a
resume-set entry) for its tile? -/
def yieldsFeatures (r : OracleResult) : Bool :=
  match r with
  | .parsed (_ :: _) => true
  | _ => false

/-- Helper: the resume set after processing one tile. -/
lemma mem_processed_processTile {α : Type} (oracle : α → OracleResult)
    (transforms : α → Affine) (tileSize : ℚ) (fs : List (Feature α)) (t' t : α) :
    t ∈ processedTiles (processTile oracle transforms tileSize fs t') ↔
      t ∈ processedTiles fs ∨ (t = t' ∧ yieldsFeatures (oracle t') = true) := by
  cases h : oracle t' with
  | apiError => simp [processTile, h, yieldsFeatures]
  | parseFailure => simp [processTile, h, yieldsFeatures]
  | parsed dets =>
    cases dets with
    | nil => simp [processTile, h, yieldsFeatures, processedTiles]
    | cons d ds =>
      simp [processTile, h, yieldsFeatures, processedTiles, mkFeature,
        List.filterMap_append, eq_comm]
      constructor
      · rintro (hA | hB | ⟨_, hB⟩)
        · exact Or.inl hA
        · exact Or.inr hB
        · exact Or.inr hB
      · rintro (hA | hB)
        · exact Or.inl hA
        · exact Or.inr (Or.inl hB)

/-- Helper: the resume set after folding the per-tile processing over a
work list. -/
lemma mem_processed_foldl {α : Type} (oracle : α → OracleResult)
    (transforms : α → Affine) (tileSize : ℚ) (t : α) :
    ∀ (ts : List α) (fs : List (Feature α)),
      t ∈ processedTiles (ts.foldl (processTile oracle transforms tileSize) fs) ↔
        t ∈ processedTiles fs ∨ (t ∈ ts ∧ yieldsFeatures (oracle t) = true) := by
  intro ts
  induction ts with
  | nil => simp
  | cons t' ts ih =>
    intro fs
    rw [List.foldl_cons, ih, mem_processed_processTile]
    constructor
    · rintro ((hm | ⟨rfl, hy⟩) | ⟨hm, hy⟩)
      · exact Or.inl hm
      · exact Or.inr ⟨List.mem_cons_self _ _, hy⟩
      · exact Or.inr ⟨List.mem_cons_of_mem _ hm, hy⟩
    · rintro (hm | ⟨hm, hy⟩)
      · exact Or.inl (Or.inl hm)
      · rcases List.mem_cons.mp hm with rfl | hm
        · exact Or.inl (Or.inr ⟨rfl, hy⟩)
        · exact Or.inr ⟨hm, hy⟩

/-- Helper: membership in the uncapped work list. -/
lemma mem_tilesToProcess {α : Type} [LinearOrder α] (allTiles : List α)
    (features : List (Feature α)) (t : α) :
    t ∈ tilesToProcess allTiles features 0 ↔
      t ∈ allTiles ∧ t ∉ processedTiles features := by
  simp only [tilesToProcess, if_neg (lt_irrefl 0), List.mem_filter,
    decide_eq_true_eq]
  rw [(List.perm_insertionSort _ allTiles).mem_iff]

/-- A fixed sample detection used in concrete runs of the batch runner. -/
def sampleDet : Det := ⟨⟨0, 0, 10, 10⟩, "mound", ""⟩

/-- A fixed sample per-tile transform used in concrete runs. -/
def sampleTransform : Affine := ⟨1, 0, 0, 0, -1, 0⟩

/-- C10: on resume, a tile is treated as already processed iff at least
one feature in the loaded output has `source_tile` equal to that tile's
filename; consequently a tile whose oracle response parsed successfully
but contained zero detections is absent from the resume set after the run
and is reprocessed on every subsequent run. -/
theorem resume_set_by_source_tile {α : Type} [LinearOrder α]
    (oracle : α → OracleResult) (transforms : α → Affine) (tileSize : ℚ)
    (allTiles : List α) (features0 : List (Feature α)) (t : α)
    (hzero : oracle t = .parsed []) (hmem : t ∈ allTiles)
    (hnew : t ∉ processedTiles features0) :
    (∀ (features : List (Feature α)) (u : α),
      u ∈ processedTiles features ↔ ∃ f ∈ features, f.source_tile = some u) ∧
    t ∉ processedTiles (detect_mounds oracle transforms tileSize allTiles features0 0) ∧
    t ∈ tilesToProcess allTiles
        (detect_mounds oracle transforms tileSize allTiles features0 0) 0 := by
  have hnot : t ∉ processedTiles
      (detect_mounds oracle transforms tileSize allTiles features0 0) := by
    rw [detect_mounds, mem_processed_foldl]
    rintro (hm | ⟨_, hy⟩)
    · exact hnew hm
    · rw [hzero] at hy
      simp [yieldsFeatures] at hy
  refine ⟨?_, hnot, ?_⟩
  · intro features u
    simp [processedTiles]
  · rw [mem_tilesToProcess]
    exact ⟨hmem, hnot⟩

/-- Witness for `resume_set_by_source_tile`: one tile, an oracle with a
fixed parsed-but-empty response, an empty pre-existing output. -/
theorem resume_set_by_source_tile_witness :
    ((fun _ : ℕ => OracleResult.parsed []) 0 = OracleResult.parsed [] ∧
      0 ∈ [0] ∧ 0 ∉ processedTiles ([] : List (Feature ℕ))) ∧
    0 ∉ processedTiles (detect_mounds (fun _ : ℕ => OracleResult.parsed [])
        (fun _ => sampleTransform) 512 [0] [] 0) ∧
    0 ∈ tilesToProcess [0] (detect_mounds (fun _ : ℕ => OracleResult.parsed [])
        (fun _ => sampleTransform) 512 [0] [] 0) 0 :=
  ⟨⟨rfl, by simp, by simp [processedTiles]⟩,
    (resume_set_by_source_tile (fun _ : ℕ => OracleResult.parsed [])
        (fun _ => sampleTransform) 512 [0] [] 0 rfl (by simp)
        (by simp [processedTiles])).2⟩

/-- C3, counterexample: with the stub oracle whose fixed response parses
to zero detections, a single-tile run ledgers nothing — the tile is not
in the resume set and the second run's work list still contains it, so
the second run does not process zero new tiles. -/
theorem stub_oracle_empty_response_reprocessed :
    processedTiles (detect_mounds (fun _ : ℕ => OracleResult.parsed [])
        (fun _ => sampleTransform) 512 [0] [] 0) = [] ∧
    tilesToProcess [0] (detect_mounds (fun _ : ℕ => OracleResult.parsed [])
        (fun _ => sampleTransform) 512 [0] [] 0) 0 = [0] := by
  constructor <;>
    simp [detect_mounds, tilesToProcess, processTile, processedTiles,
      List.insertionSort, List.orderedInsert]

/-- C3, amended: the batch runner processes only tiles absent from the
resume set, in sorted order by tile filename; with a stub oracle whose
fixed response parses to at least one detection, one run from an empty
output ledgers exactly the tile set, and a second run processes zero new
tiles and appends nothing. -/
theorem batch_runner_idempotent {α : Type} [LinearOrder α]
    (oracle : α → OracleResult) (transforms : α → Affine) (tileSize : ℚ)
    (allTiles : List α) (ds : List Det)
    (hstub : ∀ u, oracle u = .parsed ds) (hds : ds ≠ []) :
    (∀ (features : List (Feature α)) (u : α),
      u ∈ tilesToProcess allTiles features 0 ↔
        u ∈ allTiles ∧ u ∉ processedTiles features) ∧
    (∀ features : List (Feature α),
      (tilesToProcess allTiles features 0).Sorted (· ≤ ·)) ∧
    (∀ u, u ∈ processedTiles (detect_mounds oracle transforms tileSize allTiles [] 0) ↔
      u ∈ allTiles) ∧
    tilesToProcess allTiles
        (detect_mounds oracle transforms tileSize allTiles [] 0) 0 = [] ∧
    detect_mounds oracle transforms tileSize allTiles
        (detect_mounds oracle transforms tileSize allTiles [] 0) 0
      = detect_mounds oracle transforms tileSize allTiles [] 0 := by
  have hyield : ∀ u, yieldsFeatures (oracle u) = true := by
    intro u
    rw [hstub]
    cases ds with
    | nil => exact absurd rfl hds
    | cons d ds => rfl
  have hledger : ∀ u,
      u ∈ processedTiles (detect_mounds oracle transforms tileSize allTiles [] 0) ↔
        u ∈ allTiles := by
    intro u
    rw [detect_mounds, mem_processed_foldl]
    simp only [processedTiles, List.filterMap_nil, List.not_mem_nil, false_or,
      hyield, and_true]
    rw [mem_tilesToProcess]
    simp [processedTiles]
  have hempty : tilesToProcess allTiles
      (detect_mounds oracle transforms tileSize allTiles [] 0) 0 = [] := by
    rw [List.eq_nil_iff_forall_not_mem]
    intro u
    rw [mem_tilesToProcess]
    rintro ⟨hmem, hnp⟩
    exact hnp ((hledger u).mpr hmem)
  refine ⟨mem_tilesToProcess allTiles, ?_, hledger, hempty, ?_⟩
  · intro features
    have hsorted := List.sorted_insertionSort (· ≤ ·) allTiles
    simp only [tilesToProcess, if_neg (lt_irrefl 0)]
    exact hsorted.filter _
  · rw [detect_mounds, hempty]
    rfl

/-- Witness for `batch_runner_idempotent`: two unsorted tiles, a stub
oracle with a fixed one-detection response. -/
theorem batch_runner_idempotent_witness :
    ([sampleDet] ≠ ([] : List Det)) ∧
    tilesToProcess [1, 0]
        (detect_mounds (fun _ : ℕ => OracleResult.parsed [sampleDet])
          (fun _ => sampleTransform) 512 [1, 0] [] 0) 0 = [] ∧
    detect_mounds (fun _ : ℕ => OracleResult.parsed [sampleDet])
        (fun _ => sampleTransform) 512 [1, 0]
        (detect_mounds (fun _ : ℕ => OracleResult.parsed [sampleDet])
          (fun _ => sampleTransform) 512 [1, 0] [] 0) 0
      = detect_mounds (fun _ : ℕ => OracleResult.parsed [sampleDet])
          (fun _ => sampleTransform) 512 [1, 0] [] 0 :=
  ⟨by simp,
    (batch_runner_idempotent (fun _ : ℕ => OracleResult.parsed [sampleDet])
      (fun _ => sampleTransform) 512 [1, 0] [sampleDet] (fun _ => rfl)
      (by simp)).2.2.2.1,
    (batch_runner_idempotent (fun _ : ℕ => OracleResult.parsed [sampleDet])
      (fun _ => sampleTransform) 512 [1, 0] [sampleDet] (fun _ => rfl)
      (by simp)).2.2.2.2⟩

/-- C4, counterexample: two tiles where tile `0`'s response fails to
parse and tile `1`'s parses with one detection.  After the run the
persisted ledger (resume set) contains only tile `1`: no error entry was
recorded for tile `0`, and tile `0` is in the next run's work list, so it
is retried — contradicting the claim that a parse-failure tile is
ledgered and not retried. -/
theorem parse_failure_tile_not_recorded :
    processedTiles (detect_mounds
        (fun t : ℕ => if t = 0 then OracleResult.parseFailure
          else OracleResult.parsed [sampleDet])
        (fun _ => sampleTransform) 512 [0, 1] [] 0) = [1] ∧
    0 ∈ tilesToProcess [0, 1] (detect_mounds
        (fun t : ℕ => if t = 0 then OracleResult.parseFailure
          else OracleResult.parsed [sampleDet])
        (fun _ => sampleTransform) 512 [0, 1] [] 0) 0 := by
  constructor <;>
    simp [detect_mounds, tilesToProcess, processTile, processedTiles, mkFeature,
      List.insertionSort, List.orderedInsert]

/-- C4, amended: for every tile whose oracle response fails to parse, the
runner records nothing for that tile — the tile is absent from the
persisted ledger after the run (unless it was already there), appears in
the work list of every subsequent run (it is retried), and the run
continues past it without raising: every other tile whose response
parses with detections is still ledgered. -/
theorem parse_failure_skipped_and_retried {α : Type} [LinearOrder α]
    (oracle : α → OracleResult) (transforms : α → Affine) (tileSize : ℚ)
    (allTiles : List α) (features0 : List (Feature α)) (t : α)
    (hfail : oracle t = .parseFailure) :
    (t ∈ processedTiles (detect_mounds oracle transforms tileSize allTiles features0 0) ↔
      t ∈ processedTiles features0) ∧
    (t ∈ allTiles → t ∉ processedTiles features0 →
      t ∈ tilesToProcess allTiles
          (detect_mounds oracle transforms tileSize allTiles features0 0) 0) ∧
    (∀ u ∈ allTiles, yieldsFeatures (oracle u) = true →
      u ∉ processedTiles features0 →
      u ∈ processedTiles (detect_mounds oracle transforms tileSize allTiles features0 0)) := by
  have hpart1 : t ∈ processedTiles
      (detect_mounds oracle transforms tileSize allTiles features0 0) ↔
        t ∈ processedTiles features0 := by
    rw [detect_mounds, mem_processed_foldl]
    constructor
    · rintro (hm | ⟨_, hy⟩)
      · exact hm
      · rw [hfail] at hy
        simp [yieldsFeatures] at hy
    · exact Or.inl
  refine ⟨hpart1, ?_, ?_⟩
  · intro hmem hnp
    rw [mem_tilesToProcess]
    exact ⟨hmem, fun hc => hnp (hpart1.mp hc)⟩
  · intro u hu hy hnp
    rw [detect_mounds, mem_processed_foldl]
    exact Or.inr ⟨(mem_tilesToProcess allTiles features0 u).mpr ⟨hu, hnp⟩, hy⟩

/-- Witness for `parse_failure_skipped_and_retried` at the two-tile
configuration of the counterexample. -/
theorem parse_failure_skipped_and_retried_witness :
    ((fun t : ℕ => if t = 0 then OracleResult.parseFailure
        else OracleResult.parsed [sampleDet]) 0 = OracleResult.parseFailure) ∧
    ((0 ∈ processedTiles (detect_mounds
        (fun t : ℕ => if t = 0 then OracleResult.parseFailure
          else OracleResult.parsed [sampleDet])
        (fun _ => sampleTransform) 512 [0, 1] [] 0) ↔
      0 ∈ processedTiles ([] : List (Feature ℕ))) ∧
    (0 ∈ [0, 1] → 0 ∉ processedTiles ([] : List (Feature ℕ)) →
      0 ∈ tilesToProcess [0, 1] (detect_mounds
        (fun t : ℕ => if t = 0 then OracleResult.parseFailure
          else OracleResult.parsed [sampleDet])
        (fun _ => sampleTransform) 512 [0, 1] [] 0) 0) ∧
    (∀ u ∈ [0, 1],
      yieldsFeatures ((fun t : ℕ => if t = 0 then OracleResult.parseFailure
        else OracleResult.parsed [sampleDet]) u) = true →
      u ∉ processedTiles ([] : List (Feature ℕ)) →
      u ∈ processedTiles (detect_mounds
        (fun t : ℕ => if t = 0 then OracleResult.parseFailure
          else OracleResult.parsed [sampleDet])
        (fun _ => sampleTransform) 512 [0, 1] [] 0))) :=
  ⟨rfl,
    parse_failure_skipped_and_retried
      (fun t : ℕ => if t = 0 then OracleResult.parseFailure
        else OracleResult.parsed [sampleDet])
      (fun _ => sampleTransform) 512 [0, 1] [] 0 rfl⟩
